import Mathlib

/-!
Shallow embedding of `kindleclip2md.py` (Kindle HTML notebook export → Markdown).

The markup-parsing collaborator is modelled at its interface: the document is
the flat sibling sequence of block elements (the export's structure), each
element exposing its tag name, class list, `decode_contents()` serialization
and plain rendered text.  The completion-service collaborator is modelled as an
abstract outcome (transport failure, or a reply whose JSON shape is known).
Python character classes are restricted to ASCII; all inputs considered here
are ASCII apart from the middle-dot literal of the regex itself.
-/

namespace KindleClip2Md

/-- Python `\s` whitespace class (ASCII fragment). -/
def pyIsSpace (c : Char) : Bool :=
  c = ' ' || c = '\t' || c = '\n' || c = '\r' || c = '\x0b' || c = '\x0c'

/-- Python `\w` word class (ASCII fragment). -/
def pyIsWord (c : Char) : Bool := c.isAlphanum || c = '_'

/-- Drop trailing characters satisfying `p`. -/
def dropTrailing (p : Char → Bool) (l : List Char) : List Char :=
  (l.reverse.dropWhile p).reverse

/-- Python `str.strip()` at the character-list level. -/
def pyStripL (l : List Char) : List Char :=
  dropTrailing pyIsSpace (l.dropWhile pyIsSpace)

/-- Python `str.strip()`. -/
def pyStrip (s : String) : String := ⟨pyStripL s.data⟩

/-- Python `sep.join(parts)` at the character-list level. -/
def joinSep (sep : List Char) : List (List Char) → List Char
  | [] => []
  | [x] => x
  | x :: y :: rest => x ++ sep ++ joinSep sep (y :: rest)

/-- Python `sep.join(parts)`. -/
def pyJoin (sep : String) (parts : List String) : String :=
  ⟨joinSep sep.data (parts.map String.data)⟩

/-- Python `str.split("\n")` at the character-list level. -/
def splitNl : List Char → List (List Char)
  | [] => [[]]
  | c :: rest =>
    if c = '\n' then [] :: splitNl rest
    else
      match splitNl rest with
      | [] => [[c]]
      | h :: t => (c :: h) :: t

/-- Python `str.split("\n")`. -/
def pySplitNl (s : String) : List String := (splitNl s.data).map (fun l => (⟨l⟩ : String))

/-- If `p` is a prefix of `l`, the remainder of `l`; otherwise `none`. -/
def dropPrefixCh : List Char → List Char → Option (List Char)
  | [], l => some l
  | _ :: _, [] => none
  | p :: ps, c :: cs => if p = c then dropPrefixCh ps cs else none

/-- The named captures of `note_heading_regex` (source lines 82-89):
`color`, `page`, `location` are `None` when their optional group is absent;
`chapter` is the text of the mandatory group. -/
structure RegexMatch where
  color : Option String
  chapter : String
  page : Option String
  location : Option String
deriving DecidableEq

/-- The mandatory alternative `(Highlight|Note)` at the start of the pattern. -/
def matchKeyword (l : List Char) : Option (List Char) :=
  match dropPrefixCh "Highlight".data l with
  | some r => some r
  | none => dropPrefixCh "Note".data l

/-- The optional color group
`(?:\(<span class="highlight_(?P<color>\w+)">\w+</span>\))?`. -/
def tryColor (l : List Char) : Option (List Char × List Char) :=
  match dropPrefixCh "(<span class=\"highlight_".data l with
  | none => none
  | some r1 =>
    let col := r1.takeWhile pyIsWord
    let r2 := r1.dropWhile pyIsWord
    if col = [] then none
    else
      match dropPrefixCh "\">".data r2 with
      | none => none
      | some r3 =>
        let w := r3.takeWhile pyIsWord
        let r4 := r3.dropWhile pyIsWord
        if w = [] then none
        else
          match dropPrefixCh "</span>)".data r4 with
          | none => none
          | some r5 => some (col, r5)

/-- `\s*(?P<chapter>[^>]+?)\s*>` after the literal dash.  The capture never
contains `>`; the leading greedy `\s*` and lazy `[^>]+?` resolve to the region
up to the first `>`, trimmed of surrounding whitespace — except that when that
region is all whitespace, backtracking leaves exactly its last character as the
capture. -/
def chapterSplit (t : List Char) : Option (List Char × List Char) :=
  let r := t.takeWhile (· != '>')
  match t.dropWhile (· != '>') with
  | '>' :: after =>
    match r.getLast? with
    | none => none
    | some lastc =>
      if r.all pyIsSpace then some ([lastc], after)
      else some (dropTrailing pyIsSpace (r.dropWhile pyIsSpace), after)
  | _ => none

/-- The optional page group `(?:\s*Page\s*(?P<page>\d+))?`. -/
def tryPage (l : List Char) : Option (List Char × List Char) :=
  match dropPrefixCh "Page".data (l.dropWhile pyIsSpace) with
  | none => none
  | some r2 =>
    let r3 := r2.dropWhile pyIsSpace
    let ds := r3.takeWhile Char.isDigit
    if ds = [] then none else some (ds, r3.dropWhile Char.isDigit)

/-- The optional location group `(?:\s*·\s*Location\s*(?P<location>\d+))?`. -/
def tryLocation (l : List Char) : Option (List Char × List Char) :=
  match l.dropWhile pyIsSpace with
  | '·' :: r2 =>
    match dropPrefixCh "Location".data (r2.dropWhile pyIsSpace) with
    | none => none
    | some r4 =>
      let r5 := r4.dropWhile pyIsSpace
      let ds := r5.takeWhile Char.isDigit
      if ds = [] then none else some (ds, r5.dropWhile Char.isDigit)
  | _ => none

/-- The pattern continuation after the type keyword. -/
def matchAfterKeyword (r1 : List Char) : Option RegexMatch :=
  let r2 := r1.dropWhile pyIsSpace
  let cr :=
    match tryColor r2 with
    | some (c, rest) => (some c, rest)
    | none => (none, r2)
  match cr.2.dropWhile pyIsSpace with
  | '-' :: t =>
    match chapterSplit t with
    | none => none
    | some (chap, after) =>
      let pr :=
        match tryPage after with
        | some (p, rest) => (some p, rest)
        | none => (none, after)
      let location :=
        match tryLocation pr.2 with
        | some (lo, _) => some lo
        | none => none
      some ⟨cr.1.map (fun c => (⟨c⟩ : String)), ⟨chap⟩,
            pr.1.map (fun p => (⟨p⟩ : String)), location.map (fun lo => (⟨lo⟩ : String))⟩
  | _ => none

/-- Attempt the whole pattern at this exact start position. -/
def matchFrom (l : List Char) : Option RegexMatch :=
  match matchKeyword l with
  | none => none
  | some r1 => matchAfterKeyword r1

/-- `re.search`: the match at the leftmost position where the pattern succeeds. -/
def searchL : List Char → Option RegexMatch
  | [] => matchFrom []
  | c :: rest =>
    match matchFrom (c :: rest) with
    | some m => some m
    | none => searchL rest

/-- `note_heading_regex.search` applied to a heading string. -/
def note_heading_regex_search (s : String) : Option RegexMatch := searchL s.data

/-- Whether some position of the string starts with the mandatory type keyword. -/
def hasTypeKeyword : List Char → Bool
  | [] => false
  | c :: rest => (matchKeyword (c :: rest)).isSome || hasTypeKeyword rest

/-- One block-level element of the export, at the markup collaborator's
interface: `name` is the tag name, `classes` the class attribute, `innerHTML`
the `decode_contents()` serialization (keeps the color `<span>` markup), `text`
the plain rendered text. -/
structure Element where
  name : String
  classes : List String
  innerHTML : String
  text : String
deriving DecidableEq

/-- One record of the `notes` list built by `parse_html_notebook` (the
`note_info` dicts, source lines 96-127). -/
inductive NoteRecord where
  | section_header (text : String)
  | highlight (color chapter : String) (page location : Option String)
      (text original_heading : String)
  | unknown_heading_format (original_heading text : String)
deriving DecidableEq

/-- The result dict of `parse_html_notebook` (source line 129). -/
structure ParsedData where
  book_title : String
  author : String
  notes : List NoteRecord
deriving DecidableEq

/-- `element.find_next_sibling("div", class_="noteText")` followed by
`.text.strip() if ... else ""` (source lines 103-104), over the following
siblings. -/
def find_note_text : List Element → String
  | [] => ""
  | e :: rest =>
    if e.name = "div" ∧ "noteText" ∈ e.classes then pyStrip e.text
    else find_note_text rest

/-- Source lines 106-127: classify one `noteHeading` element, given the paired
note text already found. -/
def classify_note_heading (e : Element) (text_content : String) : NoteRecord :=
  match note_heading_regex_search (pyStrip e.innerHTML) with
  | some m =>
    .highlight
      (match m.color with
       | some c => if c = "" then "no_color" else c
       | none => "no_color")
      (pyStrip m.chapter)
      m.page m.location text_content (pyStrip e.text)
  | none => .unknown_heading_format (pyStrip e.text) text_content

/-- The `for element in soup.find_all(["div", "hr"])` loop (source lines
91-127); `hr` separators and unclassed `div`s contribute nothing. -/
def walk_elements : List Element → List NoteRecord
  | [] => []
  | e :: rest =>
    if e.name = "hr" then walk_elements rest
    else if e.name ≠ "div" then walk_elements rest
    else if "sectionHeading" ∈ e.classes then
      .section_header (pyStrip e.text) :: walk_elements rest
    else if "noteHeading" ∈ e.classes then
      classify_note_heading e (find_note_text rest) :: walk_elements rest
    else walk_elements rest

/-- `parse_html_notebook` (source lines 65-129). -/
def parse_html_notebook (doc : List Element) : ParsedData :=
  { book_title :=
      match doc.find? (fun e => e.name == "div" && e.classes.contains "bookTitle") with
      | some e => pyStrip e.text
      | none => "Unknown Title"
    author :=
      match doc.find? (fun e => e.name == "div" && e.classes.contains "authors") with
      | some e => pyStrip e.text
      | none => "Unknown Author"
    notes := walk_elements doc }

/-- The frontmatter content dict (`tags`, `description`). -/
structure Frontmatter where
  tags : List String
  description : String
deriving DecidableEq

/-- The delimited metadata block lines (source lines 139-158). -/
def frontmatter_lines (book_title author : String) (fm : Frontmatter) : List String :=
  ["---",
   "bookTitle: \"" ++ book_title ++ "\"",
   "author: \"" ++ author ++ "\"",
   "tags:"]
  ++ fm.tags.map (fun t => "  - " ++ t)
  ++ (if '\n' ∈ fm.description.data then
        "description: |" :: (pySplitNl fm.description).map (fun l => "  " ++ l)
      else
        ["description: \"" ++ fm.description ++ "\""])
  ++ ["---"]

/-- The lines rendered for one record (source lines 165-204). -/
def note_lines : NoteRecord → List String
  | .section_header t => ["## " ++ t, ""]
  | .highlight color chapter page location text oh =>
    let heading_parts :=
      (if chapter ≠ "" ∧ chapter ≠ "Unknown Chapter" then [chapter] else [])
      ++ (match page with
          | some p => if p ≠ "" then ["Page " ++ p] else []
          | none => [])
      ++ (match location with
          | some lo => if lo ≠ "" then ["Location " ++ lo] else []
          | none => [])
    let title0 :=
      if color ≠ "" ∧ color ≠ "no_color" then "### Highlight (" ++ color ++ ")"
      else "### Note"
    let title1 :=
      if heading_parts ≠ [] then title0 ++ " - " ++ pyJoin " · " heading_parts
      else title0 ++ " - " ++ oh
    [title1] ++ (if text ≠ "" then ["> " ++ text] else []) ++ [""]
  | .unknown_heading_format oh text =>
    ["### Note - " ++ oh] ++ (if text ≠ "" then ["> " ++ text] else []) ++ [""]

/-- `format_to_markdown` (source lines 132-205). -/
def format_to_markdown (parsed : ParsedData) (fm : Frontmatter) : String :=
  pyJoin "\n"
    (frontmatter_lines parsed.book_title parsed.author fm
     ++ [""]
     ++ ["# \"" ++ parsed.book_title ++ "\""]
     ++ (parsed.notes.map note_lines).flatten)

/-- The rendered metadata block alone, as one string. -/
def frontmatter_block (book_title author : String) (fm : Frontmatter) : String :=
  pyJoin "\n" (frontmatter_lines book_title author fm)

/-- What `json.loads` finds in the completion text: not JSON at all
(`JSONDecodeError`), valid JSON that is not an object (`.get` then raises,
caught by the outer handler), or an object whose `tags` / `description` keys
may each be absent. -/
inductive JsonShape where
  | notJson
  | nonObject
  | objectVal (tags : Option (List String)) (description : Option String)
deriving DecidableEq

/-- Outcome of the completion-service call: the `try` body raised before a
reply was parsed (unreachable service, absent or invalid credentials), or a
reply text with its JSON shape. -/
inductive LLMOutcome where
  | apiFailure
  | reply (content : String) (shape : JsonShape)
deriving DecidableEq

/-- The fixed fallback frontmatter (source lines 59-62). -/
def fallback_frontmatter : Frontmatter :=
  ⟨["untagged", "needs_review"], "Description to be generated or manually entered."⟩

/-- `generate_frontmatter_content_with_llm` (source lines 7-62), as a function
of the abstract service outcome. -/
def generate_frontmatter_content_with_llm : LLMOutcome → Frontmatter
  | .apiFailure => fallback_frontmatter
  | .reply content .notJson =>
    ⟨["error_parsing_llm_tags"], "Error parsing description. Raw: " ++ content⟩
  | .reply _ .nonObject => fallback_frontmatter
  | .reply _ (.objectVal ot od) =>
    ⟨ot.getD ["llm_generated_tag"], od.getD "LLM generated description."⟩

/-- The `note["text"]` lookup of `main` (source line 232): every record dict
carries a `"text"` key. -/
def note_text_field : NoteRecord → String
  | .section_header t => t
  | .highlight _ _ _ _ t _ => t
  | .unknown_heading_format _ t => t

/-- `main`, source lines 232-243: the sample text handed to the completion
service, truncated past 1000 characters. -/
def sample_text_for_llm (parsed : ParsedData) : String :=
  let s := pyJoin "\n\n" (parsed.notes.map note_text_field)
  if s.length > 1000 then s.take 1000 ++ "\n... (truncated)" else s

/-- Follows the spec's words for C4 ("concatenation of all annotation texts"):
the same joining, restricted to `Annotation` records only. -/
def annotation_texts_only (parsed : ParsedData) : String :=
  pyJoin "\n\n"
    ((parsed.notes.filter (fun n =>
        match n with
        | .highlight _ _ _ _ _ _ => true
        | _ => false)).map note_text_field)

/-- Follows the spec's words for C3: the sibling search that stops at the
first following heading or separator element. -/
def find_note_text_spec : List Element → String
  | [] => ""
  | e :: rest =>
    if e.name = "div" ∧ "noteText" ∈ e.classes then pyStrip e.text
    else if e.name = "hr" ∨ "noteHeading" ∈ e.classes ∨ "sectionHeading" ∈ e.classes then ""
    else find_note_text_spec rest

/-- Body of a double-quoted scalar: accepts `content ++ ['"']` where the
content holds no quote and no escape, and returns the content. -/
def takeQuoted : List Char → Option (List Char)
  | [] => none
  | c :: rest =>
    if c = '"' then (if rest = [] then some [] else none)
    else if c = '\\' then none
    else (takeQuoted rest).map (fun t => c :: t)

/-- A `key: "value"` line of the metadata block. -/
def parseQuotedL (key : List Char) (l : List Char) : Option (List Char) :=
  match dropPrefixCh key l with
  | some ('"' :: r2) => takeQuoted r2
  | _ => none

/-- Words the YAML core and 1.1 schemas resolve to booleans or null rather
than strings (compared case-insensitively). -/
def yamlWordLike (t : List Char) : Bool :=
  let lo := t.map Char.toLower
  lo == "true".data || lo == "false".data || lo == "yes".data || lo == "no".data ||
  lo == "on".data || lo == "off".data || lo == "null".data ||
  lo == "y".data || lo == "n".data

/-- A sequence item the YAML consumer returns verbatim as a string: it must
start with an ASCII letter (so no `-`/`?`/`[`/`{`/`&`/`*`/`!`/`|`/`>`/quote/
`%`/`@` indicator character and no number, date or sexagesimal shape), contain
only letters, digits, `_`, `-` and inner spaces (so no `:`, `#`, quotes or
other structure-bearing characters), carry no leading or trailing whitespace,
and not be a boolean/null keyword.  Anything else is rejected, since a real
YAML parser would give it structure or resolve it to a non-string scalar. -/
def safeTagL (t : List Char) : Bool :=
  (match t with
   | c :: _ => c.isAlpha
   | [] => false)
  && t.all (fun c => c.isAlphanum || c = '_' || c = '-' || c = ' ')
  && (pyStripL t == t)
  && !(yamlWordLike t)

/-- Collect the `  - tag` sequence lines. -/
def collectTags : List (List Char) → Option (List (List Char) × List (List Char))
  | [] => some ([], [])
  | l :: rest =>
    match dropPrefixCh "  - ".data l with
    | some t =>
      if safeTagL t then
        match collectTags rest with
        | some (ts, rem) => some (t :: ts, rem)
        | none => none
      else none
    | none => some ([], l :: rest)

/-- Block-scalar content lines may not begin with a space (indentation
detection safety). -/
def contentOk (l : List Char) : Bool :=
  match l with
  | ' ' :: _ => false
  | _ => true

/-- Split off the two-space-indented block-scalar lines, de-indented. -/
def spanIndented : List (List Char) → (List (List Char) × List (List Char))
  | [] => ([], [])
  | l :: rest =>
    match dropPrefixCh "  ".data l with
    | some c =>
      let ab := spanIndented rest
      (c :: ab.1, ab.2)
    | none => ([], l :: rest)

/-- Remove trailing empty lines. -/
def dropTrailingEmptyLines (ls : List (List Char)) : List (List Char) :=
  (ls.reverse.dropWhile (fun l => l.isEmpty)).reverse

/-- Value of a literal block scalar (`|`, clip chomping): the kept lines
joined by newlines, with a single trailing newline when any line remains. -/
def clipBlock (cs : List (List Char)) : List Char :=
  match dropTrailingEmptyLines cs with
  | [] => []
  | d :: ds => joinSep ['\n'] (d :: ds) ++ ['\n']

/-- The `description` entry: a quoted single line, or a literal block. -/
def parseDescL : List (List Char) → Option (List Char × List (List Char))
  | [] => none
  | l :: rest =>
    if l = "description: |".data then
      let cr := spanIndented rest
      if cr.1.all contentOk then some (clipBlock cr.1, cr.2) else none
    else
      match parseQuotedL "description: ".data l with
      | some d => some (d, rest)
      | none => none

/-- The line-level YAML consumer: delimiter, quoted title and author lines,
`tags:` with a non-empty block sequence, the description entry, closing
delimiter. -/
def parseLinesFM : List (List Char) → Option (String × String × List String × String)
  | l0 :: l1 :: l2 :: l3 :: rest =>
    if l0 = "---".data ∧ l3 = "tags:".data then
      match parseQuotedL "bookTitle: ".data l1, parseQuotedL "author: ".data l2 with
      | some t, some a =>
        match collectTags rest with
        | some (ts, rem) =>
          if ts.isEmpty then none
          else
            match parseDescL rem with
            | some (d, rem2) =>
              if rem2 = ["---".data] then
                some (⟨t⟩, ⟨a⟩, ts.map (fun x => (⟨x⟩ : String)), ⟨d⟩)
              else none
            | none => none
        | none => none
      | _, _ => none
    else none
  | _ => none

/-- Modelled from the spec: "re-parsing the metadata block as structured
key-value data" — the consuming tool is external to the repository, so it is
modelled as a YAML frontmatter consumer of the fragment the formatter emits
(double-quoted scalars without escapes, a non-empty block sequence of plain
string scalars, literal block scalars with clip chomping).  Input outside that
fragment is rejected; in particular a sequence item is accepted only when
`safeTagL` certifies that every YAML parser returns it verbatim as a string —
items carrying indicator characters or boolean/null/number shapes, which a
real parser would turn into nested structure or non-string scalars, make the
parse fail rather than succeed with a different value. -/
def reparse_frontmatter_block (s : String) :
    Option (String × String × List String × String) :=
  parseLinesFM (splitNl s.data)

/-- YAML-safe inline scalar: no quote, no escape, no line break. -/
def SafeScalar (s : String) : Prop :=
  '"' ∉ s.data ∧ '\\' ∉ s.data ∧ '\n' ∉ s.data

/-- YAML-safe plain-scalar tag: newline-free and certified by `safeTagL` to be
returned verbatim as a string by any YAML parser. -/
def SafeTag (t : String) : Prop :=
  safeTagL t.data = true ∧ '\n' ∉ t.data

/-- YAML-safe description: a safe single line, or multi-line text that ends in
exactly one newline, no line of which begins with a space. -/
def SafeDesc (d : String) : Prop :=
  ('\n' ∉ d.data ∧ '"' ∉ d.data ∧ '\\' ∉ d.data) ∨
  ('\n' ∈ d.data ∧ (splitNl d.data).getLast? = some [] ∧
    (splitNl d.data).dropLast ≠ [] ∧ (splitNl d.data).dropLast.getLast? ≠ some [] ∧
    ∀ l ∈ splitNl d.data, contentOk l = true)

/-- A `noteHeading` element whose serialized contents and rendered text agree
(no embedded markup). -/
def heading_el (h : String) : Element := ⟨"div", ["noteHeading"], h, h⟩

/-- A `noteText` element. -/
def note_text_el (t : String) : Element := ⟨"div", ["noteText"], t, t⟩

/-- A `sectionHeading` element. -/
def section_el (t : String) : Element := ⟨"div", ["sectionHeading"], t, t⟩

/-! ### Helper lemmas -/

theorem matchFrom_eq_none_of_no_keyword (l : List Char)
    (h : matchKeyword l = none) : matchFrom l = none := by
  simp [matchFrom, h]

theorem searchL_eq_none_of_no_keyword :
    ∀ l : List Char, hasTypeKeyword l = false → searchL l = none := by
  intro l
  induction l with
  | nil => intro _; decide
  | cons c rest ih =>
    intro h
    rw [hasTypeKeyword] at h
    rcases Bool.or_eq_false_iff.mp h with ⟨h1, h2⟩
    have hk : matchKeyword (c :: rest) = none := by
      cases hmk : matchKeyword (c :: rest) with
      | none => rfl
      | some r => rw [hmk] at h1; simp at h1
    rw [searchL, matchFrom_eq_none_of_no_keyword _ hk]
    exact ih h2

theorem classify_eq_unknown_of_search_none (e : Element) (txt : String)
    (h : note_heading_regex_search (pyStrip e.innerHTML) = none) :
    classify_note_heading e txt = .unknown_heading_format (pyStrip e.text) txt := by
  simp [classify_note_heading, h]

theorem walk_elements_noteHeading (e : Element) (rest : List Element)
    (hname : e.name = "div") (hsec : "sectionHeading" ∉ e.classes)
    (hnote : "noteHeading" ∈ e.classes) :
    walk_elements (e :: rest) =
      classify_note_heading e (find_note_text rest) :: walk_elements rest := by
  have hhr : ¬ e.name = "hr" := by rw [hname]; decide
  have hdiv : ¬ e.name ≠ "div" := by rw [hname]; simp
  simp only [walk_elements, if_neg hhr, if_neg hdiv, if_neg hsec, if_pos hnote]

/-! ### Metadata-block round-trip helpers -/

theorem string_data_append (a b : String) : (a ++ b).data = a.data ++ b.data := rfl

theorem string_mk_data (s : String) : (⟨s.data⟩ : String) = s := rfl

theorem map_mk_data (l : List String) :
    (l.map String.data).map (fun x => (⟨x⟩ : String)) = l := by
  induction l with
  | nil => rfl
  | cons x t ih => simp [ih]

theorem map_mk_comp_data (l : List String) :
    l.map ((fun x => (⟨x⟩ : String)) ∘ String.data) = l := by
  induction l with
  | nil => rfl
  | cons x t ih => simp [ih, Function.comp]

theorem dropPrefixCh_append (p r : List Char) : dropPrefixCh p (p ++ r) = some r := by
  induction p with
  | nil => rfl
  | cons c cs ih => simp [dropPrefixCh, ih]

theorem dropPrefixCh_head_ne (p c : Char) (ps cs : List Char) (h : ¬ p = c) :
    dropPrefixCh (p :: ps) (c :: cs) = none := by
  simp [dropPrefixCh, h]

theorem takeQuoted_append (v : List Char) (hq : '"' ∉ v) (hb : '\\' ∉ v) :
    takeQuoted (v ++ ['"']) = some v := by
  induction v with
  | nil => rfl
  | cons c cs ih =>
    simp only [List.mem_cons, not_or] at hq hb
    have hc : ¬ c = '"' := fun h => hq.1 h.symm
    have hcb : ¬ c = '\\' := fun h => hb.1 h.symm
    simp [takeQuoted, hc, hcb, ih hq.2 hb.2]

theorem parseQuotedL_line (pre v : String) (key : List Char)
    (hq : '"' ∉ v.data) (hb : '\\' ∉ v.data)
    (hkey : pre.data = key ++ ['"']) :
    parseQuotedL key (pre ++ v ++ "\"").data = some v.data := by
  have hdata : (pre ++ v ++ "\"").data = key ++ ('"' :: (v.data ++ ['"'])) := by
    simp [string_data_append, hkey, List.append_assoc]
  rw [hdata]
  simp [parseQuotedL, dropPrefixCh_append, takeQuoted_append v.data hq hb]

theorem collectTags_stop (r0 : List Char) (r' : List (List Char))
    (h : dropPrefixCh "  - ".data r0 = none) :
    collectTags (r0 :: r') = some ([], r0 :: r') := by
  simp [collectTags, h]

theorem collectTags_render (ts rem : List (List Char))
    (hsafe : ∀ x ∈ ts, safeTagL x = true)
    (hrem : collectTags rem = some ([], rem)) :
    collectTags (ts.map (fun x => "  - ".data ++ x) ++ rem) = some (ts, rem) := by
  induction ts with
  | nil => simpa using hrem
  | cons x xs ih =>
    have hx := hsafe x (List.mem_cons_self x xs)
    have ih' := ih (fun y hy => hsafe y (List.mem_cons_of_mem x hy))
    simp only [show ("  - ".data : List Char) = [' ', ' ', '-', ' '] from rfl,
      List.cons_append, List.nil_append] at ih' ⊢
    simp [collectTags, dropPrefixCh, List.nil_append, List.append_eq, hx, ih']

theorem spanIndented_stop (r0 : List Char) (r' : List (List Char))
    (h : dropPrefixCh "  ".data r0 = none) :
    spanIndented (r0 :: r') = ([], r0 :: r') := by
  simp [spanIndented, h]

theorem spanIndented_render (cs rem : List (List Char))
    (hrem : spanIndented rem = ([], rem)) :
    spanIndented (cs.map (fun c => "  ".data ++ c) ++ rem) = (cs, rem) := by
  induction cs with
  | nil => simpa using hrem
  | cons x xs ih =>
    have ih' := ih
    simp only [show ("  ".data : List Char) = [' ', ' '] from rfl,
      List.cons_append, List.nil_append] at ih' ⊢
    simp [spanIndented, dropPrefixCh, List.nil_append, List.append_eq, ih']

theorem splitNl_ne_nil : ∀ l : List Char, splitNl l ≠ []
  | [] => by simp [splitNl]
  | c :: rest => by
    by_cases hc : c = '\n'
    · simp [splitNl, hc]
    · cases h : splitNl rest with
      | nil => simp [splitNl, hc, h]
      | cons a b => simp [splitNl, hc, h]

theorem splitNl_no_nl (l : List Char) (h : '\n' ∉ l) : splitNl l = [l] := by
  induction l with
  | nil => rfl
  | cons c rest ih =>
    simp only [List.mem_cons, not_or] at h
    have hc : ¬ c = '\n' := fun hh => h.1 hh.symm
    simp [splitNl, hc, ih h.2]

theorem splitNl_append (a b : List Char) (h : '\n' ∉ a) :
    splitNl (a ++ '\n' :: b) = a :: splitNl b := by
  induction a with
  | nil => simp [splitNl]
  | cons c rest ih =>
    simp only [List.mem_cons, not_or] at h
    have hc : ¬ c = '\n' := fun hh => h.1 hh.symm
    simp [splitNl, hc, ih h.2]

theorem splitNl_joinSep (ls : List (List Char)) (h0 : ls ≠ [])
    (h : ∀ x ∈ ls, '\n' ∉ x) : splitNl (joinSep ['\n'] ls) = ls := by
  induction ls with
  | nil => exact absurd rfl h0
  | cons x xs ih =>
    cases xs with
    | nil => simpa [joinSep] using splitNl_no_nl x (h x (by simp))
    | cons y t =>
      have hx : '\n' ∉ x := h x (by simp)
      have : joinSep ['\n'] (x :: y :: t) = x ++ '\n' :: joinSep ['\n'] (y :: t) := by
        simp [joinSep]
      rw [this, splitNl_append _ _ hx,
        ih (by simp) (fun z hz => h z (List.mem_cons_of_mem x hz))]

theorem joinSep_splitNl (l : List Char) : joinSep ['\n'] (splitNl l) = l := by
  induction l with
  | nil => rfl
  | cons c rest ih =>
    by_cases hc : c = '\n'
    · subst hc
      cases h : splitNl rest with
      | nil => exact absurd h (splitNl_ne_nil rest)
      | cons a b =>
        rw [h] at ih
        simp [splitNl, joinSep, h, ih]
    · cases h : splitNl rest with
      | nil => exact absurd h (splitNl_ne_nil rest)
      | cons a b =>
        rw [h] at ih
        cases b with
        | nil =>
          simp only [joinSep] at ih
          simp [splitNl, hc, h, joinSep, ih]
        | cons b1 b2 =>
          simp only [joinSep] at ih
          simp [splitNl, hc, h, joinSep, ih]

theorem not_nl_mem_splitNl (x : List Char) : ∀ l ∈ splitNl x, '\n' ∉ l := by
  induction x with
  | nil =>
    intro l hl
    simp [splitNl] at hl
    simp [hl]
  | cons c rest ih =>
    intro l hl
    by_cases hc : c = '\n'
    · simp only [splitNl, hc, if_true] at hl
      rcases List.mem_cons.mp hl with h | h
      · simp [h]
      · exact ih l h
    · cases hs : splitNl rest with
      | nil => exact absurd hs (splitNl_ne_nil rest)
      | cons a b =>
        simp only [splitNl, hc, if_false, hs] at hl
        rcases List.mem_cons.mp hl with h | h
        · subst h
          have ha : '\n' ∉ a := ih a (by rw [hs]; exact List.mem_cons_self a b)
          simp only [List.mem_cons, not_or]
          exact ⟨fun hh => hc hh.symm, ha⟩
        · exact ih l (by rw [hs]; exact List.mem_cons_of_mem a h)

theorem splitNl_pyJoin (ls : List String) (h0 : ls ≠ [])
    (h : ∀ x ∈ ls, '\n' ∉ x.data) :
    splitNl (pyJoin "\n" ls).data = ls.map String.data := by
  have hd : (pyJoin "\n" ls).data = joinSep ['\n'] (ls.map String.data) := rfl
  rw [hd]
  apply splitNl_joinSep
  · simpa using h0
  · intro x hx
    rcases List.mem_map.mp hx with ⟨y, hy, rfl⟩
    exact h y hy

theorem dropTrailingEmptyLines_append_nil (xs : List (List Char)) :
    dropTrailingEmptyLines (xs ++ [[]]) = dropTrailingEmptyLines xs := by
  simp [dropTrailingEmptyLines, List.reverse_append, List.dropWhile]

theorem dropTrailingEmptyLines_eq_self (xs : List (List Char)) (h0 : xs ≠ [])
    (h : xs.getLast? ≠ some []) : dropTrailingEmptyLines xs = xs := by
  cases hrev : xs.reverse with
  | nil => exact absurd (by simpa using congrArg List.reverse hrev) h0
  | cons y r =>
    have hy : y ≠ [] := by
      intro hy
      apply h
      rw [← List.head?_reverse, hrev, hy]
      rfl
    have hye : y.isEmpty = false := by
      cases y with
      | nil => exact absurd rfl hy
      | cons _ _ => rfl
    rw [dropTrailingEmptyLines, hrev, List.dropWhile_cons]
    simp only [hye, Bool.false_eq_true, if_false]
    rw [← hrev, List.reverse_reverse]

theorem joinSep_append_empty (sep : List Char) (xs : List (List Char)) (h : xs ≠ []) :
    joinSep sep (xs ++ [[]]) = joinSep sep xs ++ sep := by
  induction xs with
  | nil => exact absurd rfl h
  | cons x t ih =>
    cases t with
    | nil => simp [joinSep]
    | cons y t2 =>
      have := ih (by simp)
      simp only [List.cons_append] at this ⊢
      simp [joinSep, this, List.append_assoc]

theorem quoted_line_data (pre v : String) (key : List Char)
    (hkey : pre.data = key ++ ['"']) :
    (pre ++ v ++ "\"").data = key ++ ('"' :: (v.data ++ ['"'])) := by
  simp [string_data_append, hkey, List.append_assoc]

theorem map_tagline_data (tags : List String) :
    (tags.map (fun tg => "  - " ++ tg)).map String.data =
      (tags.map String.data).map (fun x => "  - ".data ++ x) := by
  induction tags with
  | nil => rfl
  | cons x tl ih => simp [ih, string_data_append]

theorem map_indent_data (ls : List (List Char)) :
    ((ls.map (fun l => (⟨l⟩ : String))).map (fun l => "  " ++ l)).map String.data =
      ls.map (fun c => "  ".data ++ c) := by
  induction ls with
  | nil => rfl
  | cons x tl ih => simp [ih, string_data_append]

theorem quoted_desc_ne_bar (x : List Char) :
    "description: ".data ++ ('"' :: x) ≠ "description: |".data := by
  intro h
  have hb : "description: |".data = "description: ".data ++ ['|'] := rfl
  rw [hb] at h
  have h2 := List.append_cancel_left h
  simp at h2

/-! ### Claim C1 -/

/-- Claim C1, counterexample: the heading string `"- ChapterB > Page 10"` has a
well-formed chapter group, page token, and no type keyword, yet the classifier
produces an `UnknownHeading` record, not an `Annotation` match. -/
theorem chapter_without_keyword_not_annotation :
    parse_html_notebook [heading_el "- ChapterB > Page 10"] =
      ⟨"Unknown Title", "Unknown Author",
       [.unknown_heading_format "- ChapterB > Page 10" ""]⟩ := by
  decide

/-- Claim C1 (amended): the type keyword is mandatory, not optional: a heading
string with no occurrence of "Highlight" or "Note" at any position never
matches the pattern, so a note heading with chapter/page/location but no type
keyword yields an `UnknownHeading` record. -/
theorem no_type_keyword_yields_unknown (e : Element) (txt : String)
    (h : hasTypeKeyword (pyStrip e.innerHTML).data = false) :
    classify_note_heading e txt = .unknown_heading_format (pyStrip e.text) txt :=
  classify_eq_unknown_of_search_none e txt (searchL_eq_none_of_no_keyword _ h)

/-- Witness for C1's amended theorem at the concrete keyword-free heading. -/
theorem no_type_keyword_yields_unknown_witness :
    classify_note_heading (heading_el "- ChapterB > Page 10") "" =
      .unknown_heading_format "- ChapterB > Page 10" "" :=
  (no_type_keyword_yields_unknown (heading_el "- ChapterB > Page 10") ""
    (by decide)).trans (by decide)

/-! ### Claim C2 -/

/-- Claim C2, counterexample: a reply that is not valid JSON does not produce
the fixed fallback frontmatter. -/
theorem malformed_response_not_fixed_fallback :
    generate_frontmatter_content_with_llm (.reply "oops" .notJson) ≠
      fallback_frontmatter := by
  decide

/-- Claim C2 (amended): a transport failure or absent/invalid credentials (and
a structured reply that is not an object) yield the fixed fallback
(tags `["untagged", "needs_review"]`, fixed placeholder description), but a
reply that is not valid JSON instead yields tags `["error_parsing_llm_tags"]`
and a description embedding the raw reply text. -/
theorem llm_failure_and_malformed_frontmatter (c : String) :
    generate_frontmatter_content_with_llm .apiFailure = fallback_frontmatter ∧
    generate_frontmatter_content_with_llm (.reply c .nonObject) = fallback_frontmatter ∧
    generate_frontmatter_content_with_llm (.reply c .notJson) =
      ⟨["error_parsing_llm_tags"], "Error parsing description. Raw: " ++ c⟩ :=
  ⟨rfl, rfl, rfl⟩

/-! ### Claim C3 -/

/-- Claim C3, counterexample: with document
`[noteHeading "Note - A >", noteHeading "Note - B >", noteText "late text"]`
there is no note-text sibling before the next heading (the spec's stopping
search returns `""`), yet the first record's text is `"late text"`, taken from
the block after the later heading. -/
theorem note_text_after_later_heading_attached :
    (parse_html_notebook
        [heading_el "Note - A >", heading_el "Note - B >",
         note_text_el "late text"]).notes =
      [.highlight "no_color" "A" none none "late text" "Note - A >",
       .highlight "no_color" "B" none none "late text" "Note - B >"] ∧
    find_note_text_spec [heading_el "Note - B >", note_text_el "late text"] = "" ∧
    ("late text" : String) ≠ "" := by
  refine ⟨by decide, by decide, by decide⟩

/-- Claim C3 (amended): the record's text comes from the first following
sibling classed `noteText`, with the search not stopping at intervening
headings or separators; the text is empty only when no such sibling follows at
all. -/
theorem find_note_text_first_sibling (pre post l : List Element) (e : Element)
    (hpre : ∀ x ∈ pre, ¬(x.name = "div" ∧ "noteText" ∈ x.classes))
    (he : e.name = "div" ∧ "noteText" ∈ e.classes)
    (hl : ∀ x ∈ l, ¬(x.name = "div" ∧ "noteText" ∈ x.classes)) :
    find_note_text (pre ++ e :: post) = pyStrip e.text ∧ find_note_text l = "" := by
  constructor
  · induction pre with
    | nil => simp [find_note_text, he]
    | cons x xs ih =>
      have hx := hpre x (List.mem_cons_self x xs)
      rw [List.cons_append, find_note_text, if_neg hx]
      exact ih (fun y hy => hpre y (List.mem_cons_of_mem x hy))
  · induction l with
    | nil => rfl
    | cons x xs ih =>
      have hx := hl x (List.mem_cons_self x xs)
      rw [find_note_text, if_neg hx]
      exact ih (fun y hy => hl y (List.mem_cons_of_mem x hy))

/-- Witness for C3's amended theorem at concrete sibling lists. -/
theorem find_note_text_first_sibling_witness :
    find_note_text [heading_el "Note - B >", note_text_el "late text"] =
      pyStrip (note_text_el "late text").text ∧
    find_note_text [section_el "s"] = "" :=
  find_note_text_first_sibling [heading_el "Note - B >"] [] [section_el "s"]
    (note_text_el "late text") (by decide) (by decide) (by decide)

/-! ### Claim C4 -/

/-- Claim C4, counterexample: the sample text joins the `text` field of every
record, section headers included — here it is `"Intro\n\nT"`, while the
concatenation of annotation texts alone is `"T"`. -/
theorem sample_text_includes_section_text :
    sample_text_for_llm (parse_html_notebook
        [section_el "Intro", heading_el "Note - A > Page 1", note_text_el "T"]) =
      "Intro\n\nT" ∧
    annotation_texts_only (parse_html_notebook
        [section_el "Intro", heading_el "Note - A > Page 1", note_text_el "T"]) =
      "T" ∧
    ("Intro\n\nT" : String) ≠ "T" := by
  refine ⟨by decide, by decide, by decide⟩

/-- Claim C4 (amended): the sample text is the blank-line-joined `text` fields
of all records (section headers and unknown headings included, not only
annotations); when that string exceeds 1000 characters the string sent is its
first 1000 characters with the truncation marker appended, otherwise it is
sent unmodified. -/
theorem sample_text_truncation (parsed : ParsedData) :
    (¬ (pyJoin "\n\n" (parsed.notes.map note_text_field)).length > 1000 →
      sample_text_for_llm parsed = pyJoin "\n\n" (parsed.notes.map note_text_field)) ∧
    ((pyJoin "\n\n" (parsed.notes.map note_text_field)).length > 1000 →
      sample_text_for_llm parsed =
        (pyJoin "\n\n" (parsed.notes.map note_text_field)).take 1000 ++
          "\n... (truncated)") := by
  constructor <;> intro h <;> simp [sample_text_for_llm, h]

/-- Witness for C4's amended theorem at a short concrete document. -/
theorem sample_text_truncation_witness :
    sample_text_for_llm (parse_html_notebook
        [section_el "Intro", heading_el "Note - A > Page 1", note_text_el "T"]) =
      pyJoin "\n\n" ((parse_html_notebook
        [section_el "Intro", heading_el "Note - A > Page 1",
         note_text_el "T"]).notes.map note_text_field) :=
  (sample_text_truncation (parse_html_notebook
      [section_el "Intro", heading_el "Note - A > Page 1", note_text_el "T"])).1
    (by decide)

/-! ### Claim C5 -/

/-- Claim C5: a note heading whose (stripped) contents match the pattern
nowhere always degrades to an `UnknownHeading` record carrying the raw
rendered heading text and the paired text block; the walk continues and never
fails. -/
theorem unmatched_heading_degrades_to_unknown (e : Element) (rest : List Element)
    (hname : e.name = "div") (hsec : "sectionHeading" ∉ e.classes)
    (hnote : "noteHeading" ∈ e.classes)
    (hmatch : note_heading_regex_search (pyStrip e.innerHTML) = none) :
    walk_elements (e :: rest) =
      .unknown_heading_format (pyStrip e.text) (find_note_text rest) ::
        walk_elements rest := by
  rw [walk_elements_noteHeading e rest hname hsec hnote,
      classify_eq_unknown_of_search_none e _ hmatch]

/-- Witness for C5 at a concrete structureless heading. -/
theorem unmatched_heading_degrades_to_unknown_witness :
    walk_elements [heading_el "garbage"] = [.unknown_heading_format "garbage" ""] :=
  (unmatched_heading_degrades_to_unknown (heading_el "garbage") []
    rfl (by decide) (by decide) (by decide)).trans (by decide)

/-! ### Claim C6 -/

/-- Claim C6: the heading `"Note - ChapterB > Page 10"` (no color marker)
extracts to `color="no_color"`, `chapter="ChapterB"`, `page="10"`, location
absent, and the formatter renders the record's label as `"Note"`, not
`"Highlight"`. -/
theorem note_chapterB_extraction_and_label :
    parse_html_notebook [heading_el "Note - ChapterB > Page 10"] =
      ⟨"Unknown Title", "Unknown Author",
       [.highlight "no_color" "ChapterB" (some "10") none ""
          "Note - ChapterB > Page 10"]⟩ ∧
    note_lines (.highlight "no_color" "ChapterB" (some "10") none ""
        "Note - ChapterB > Page 10") =
      ["### Note - ChapterB · Page 10", ""] := by
  refine ⟨by decide, by decide⟩

/-! ### Claim C8 -/

/-- Claim C8, counterexample: the chapter field of an `Annotation` record can
be the literal sentinel `"Unknown Chapter"`, when the heading itself carries
that chapter name. -/
theorem chapter_can_be_sentinel_literal :
    (parse_html_notebook [heading_el "Note - Unknown Chapter > Page 1"]).notes =
      [.highlight "no_color" "Unknown Chapter" (some "1") none ""
        "Note - Unknown Chapter > Page 1"] := by
  decide

/-- Claim C8 (amended): the chapter field always comes from the mandatory
capture group (the lookup's `"Unknown Chapter"` default is unreachable), but
it can still equal the sentinel when the heading literally contains it; the
capture may be empty after trimming, and the formatter then omits the chapter
piece exactly as it does for the sentinel. -/
theorem empty_chapter_renders_like_sentinel :
    (∀ (color : String) (page location : Option String) (text oh : String),
      note_lines (.highlight color "" page location text oh) =
        note_lines (.highlight color "Unknown Chapter" page location text oh)) ∧
    (parse_html_notebook [heading_el "Note -   > Page 1"]).notes =
      [.highlight "no_color" "" (some "1") none "" "Note -   > Page 1"] := by
  constructor
  · intro color page location text oh
    simp [note_lines]
  · decide

/-! ### Claim C9 -/

/-- Claim C9: a structured object reply lacking the `tags` or `description`
key is filled with the in-parser defaults `["llm_generated_tag"]` /
`"LLM generated description."`, not with the fixed fallback values, and the
run continues with that frontmatter. -/
theorem missing_json_keys_use_llm_defaults (c : String)
    (ot : Option (List String)) (od : Option String) :
    (ot = none →
      (generate_frontmatter_content_with_llm (.reply c (.objectVal ot od))).tags =
          ["llm_generated_tag"] ∧
      (generate_frontmatter_content_with_llm (.reply c (.objectVal ot od))).tags ≠
          fallback_frontmatter.tags) ∧
    (od = none →
      (generate_frontmatter_content_with_llm (.reply c (.objectVal ot od))).description =
          "LLM generated description." ∧
      (generate_frontmatter_content_with_llm (.reply c (.objectVal ot od))).description ≠
          fallback_frontmatter.description) := by
  constructor
  · rintro rfl
    refine ⟨rfl, ?_⟩
    show ["llm_generated_tag"] ≠ fallback_frontmatter.tags
    decide
  · rintro rfl
    refine ⟨rfl, ?_⟩
    show "LLM generated description." ≠ fallback_frontmatter.description
    decide

/-- Witness for C9 at a concrete keyless object reply. -/
theorem missing_json_keys_use_llm_defaults_witness :
    (generate_frontmatter_content_with_llm (.reply "x" (.objectVal none none))).tags =
        ["llm_generated_tag"] ∧
    (generate_frontmatter_content_with_llm (.reply "x" (.objectVal none none))).description =
        "LLM generated description." :=
  ⟨((missing_json_keys_use_llm_defaults "x" none none).1 rfl).1,
   ((missing_json_keys_use_llm_defaults "x" none none).2 rfl).1⟩

/-! ### Claim C10 -/

/-- Claim C10: the conversion path is deterministic — two runs on the same
input markup and the same frontmatter content produce character-for-character
identical output (the embedded parse and format stages are pure functions of
their arguments). -/
theorem conversion_deterministic (doc₁ doc₂ : List Element) (fm₁ fm₂ : Frontmatter)
    (hdoc : doc₁ = doc₂) (hfm : fm₁ = fm₂) :
    format_to_markdown (parse_html_notebook doc₁) fm₁ =
      format_to_markdown (parse_html_notebook doc₂) fm₂ := by
  rw [hdoc, hfm]

/-! ### Claim C7 -/

/-- Claim C7, counterexample: for the multi-line description
`"First.\nSecond."` the round trip returns the description with an extra
trailing newline (the literal block scalar's clip chomping), so re-parsing the
rendered metadata block does not yield back the same description. -/
theorem multiline_description_gains_newline :
    reparse_frontmatter_block (frontmatter_block "T" "A" ⟨["x"], "First.\nSecond."⟩) =
      some ("T", "A", ["x"], "First.\nSecond.\n") ∧
    ("First.\nSecond.\n" : String) ≠ "First.\nSecond." := by
  refine ⟨by decide, by decide⟩

/-- Claim C7 (amended): re-parsing the rendered metadata block yields back the
same title, author, tag list, and description for YAML-safe inputs — title and
author free of quotes, escapes and line breaks; a non-empty list of newline-free
tags that YAML keeps as verbatim strings (each starting with a letter,
containing only letters, digits, `_`, `-` and inner spaces, trimmed, and not a
boolean/null keyword); and a description that is either a safe single line or
multi-line text ending in exactly one newline, no line of which starts with a
space.  A multi-line description not of that shape comes back altered (see the
counterexample). -/
theorem frontmatter_roundtrip_safe (t a d : String) (tags : List String)
    (ht : SafeScalar t) (ha : SafeScalar a)
    (hne : tags ≠ []) (htags : ∀ tg ∈ tags, SafeTag tg)
    (hd : SafeDesc d) :
    reparse_frontmatter_block (frontmatter_block t a ⟨tags, d⟩) =
      some (t, a, tags, d) := by
  obtain ⟨ht1, ht2, ht3⟩ := ht
  obtain ⟨ha1, ha2, ha3⟩ := ha
  have hbt := parseQuotedL_line "bookTitle: \"" t "bookTitle: ".data ht1 ht2 rfl
  have hat := parseQuotedL_line "author: \"" a "author: ".data ha1 ha2 rfl
  have hnl_bt : '\n' ∉ ("bookTitle: \"" ++ t ++ "\"").data := by
    simp only [string_data_append, List.mem_append, not_or]
    exact ⟨⟨by decide, ht3⟩, by decide⟩
  have hnl_at : '\n' ∉ ("author: \"" ++ a ++ "\"").data := by
    simp only [string_data_append, List.mem_append, not_or]
    exact ⟨⟨by decide, ha3⟩, by decide⟩
  have htagsafe : ∀ x ∈ tags.map String.data, safeTagL x = true := by
    intro x hx
    rcases List.mem_map.mp hx with ⟨y, hy, rfl⟩
    exact (htags y hy).1
  have htagnl : ∀ tg ∈ tags, '\n' ∉ ("  - " ++ tg).data := by
    intro tg htg
    rw [string_data_append]
    simp only [List.mem_append, not_or]
    exact ⟨by decide, (htags tg htg).2⟩
  have hts : (tags.map String.data).isEmpty = false := by
    cases tags with
    | nil => exact absurd rfl hne
    | cons _ _ => rfl
  rcases hd with ⟨hd1, hd2, hd3⟩ | ⟨hd1, hd2, hd3, hd4, hd5⟩
  · -- single-line description
    have hfl : frontmatter_lines t a ⟨tags, d⟩ =
        ["---", "bookTitle: \"" ++ t ++ "\"", "author: \"" ++ a ++ "\"", "tags:"]
        ++ tags.map (fun tg => "  - " ++ tg)
        ++ ["description: \"" ++ d ++ "\"", "---"] := by
      simp [frontmatter_lines, hd1]
    have hnl_dq : '\n' ∉ ("description: \"" ++ d ++ "\"").data := by
      simp only [string_data_append, List.mem_append, not_or]
      exact ⟨⟨by decide, hd1⟩, by decide⟩
    have hlines : ∀ x ∈ frontmatter_lines t a ⟨tags, d⟩, '\n' ∉ x.data := by
      rw [hfl]
      intro x hx
      simp only [List.mem_append, List.mem_cons, List.not_mem_nil, or_false,
        List.mem_map] at hx
      rcases hx with ((rfl | rfl | rfl | rfl) | ⟨tg, htg, rfl⟩) | (rfl | rfl)
      · decide
      · exact hnl_bt
      · exact hnl_at
      · decide
      · exact htagnl tg htg
      · exact hnl_dq
      · decide
    have hdt := quoted_line_data "description: \"" d "description: ".data rfl
    have hstop : collectTags
        [("description: \"" ++ d ++ "\"").data, "---".data] =
        some ([], [("description: \"" ++ d ++ "\"").data, "---".data]) := by
      apply collectTags_stop
      rw [hdt]
      have hexp : "description: ".data ++ ('"' :: (d.data ++ ['"'])) =
          'd' :: ("escription: ".data ++ ('"' :: (d.data ++ ['"']))) := rfl
      rw [hexp]
      exact dropPrefixCh_head_ne _ _ _ _ (by decide)
    have hcoll := collectTags_render (tags.map String.data)
        [("description: \"" ++ d ++ "\"").data, "---".data] htagsafe hstop
    have hdesc : parseDescL [("description: \"" ++ d ++ "\"").data, "---".data] =
        some (d.data, ["---".data]) := by
      have hpq := parseQuotedL_line "description: \"" d "description: ".data hd2 hd3 rfl
      rw [hdt] at hpq ⊢
      rw [parseDescL, if_neg (quoted_desc_ne_bar _), hpq]
    unfold reparse_frontmatter_block frontmatter_block
    rw [splitNl_pyJoin _ (by rw [hfl]; simp) hlines, hfl]
    simp only [List.map_append, List.map_cons, List.map_nil, List.cons_append,
      List.nil_append, map_tagline_data]
    have hbt' := hbt
    have hat' := hat
    have hcoll' := hcoll
    have hdesc' := hdesc
    simp at hbt' hat' hcoll' hdesc'
    simp [parseLinesFM, hbt', hat', hcoll', hts, hdesc', map_mk_data,
      map_mk_comp_data, string_mk_data]
  · -- multi-line description
    have hfl : frontmatter_lines t a ⟨tags, d⟩ =
        ["---", "bookTitle: \"" ++ t ++ "\"", "author: \"" ++ a ++ "\"", "tags:"]
        ++ tags.map (fun tg => "  - " ++ tg)
        ++ ("description: |" :: (pySplitNl d).map (fun l => "  " ++ l)
            ++ ["---"]) := by
      simp [frontmatter_lines, hd1]
    have hlines : ∀ x ∈ frontmatter_lines t a ⟨tags, d⟩, '\n' ∉ x.data := by
      rw [hfl]
      intro x hx
      simp only [List.mem_append, List.mem_cons, List.not_mem_nil, or_false,
        List.mem_map] at hx
      rcases hx with ((rfl | rfl | rfl | rfl) | ⟨tg, htg, rfl⟩) |
        ((rfl | ⟨l0, hl0, rfl⟩) | rfl)
      · decide
      · exact hnl_bt
      · exact hnl_at
      · decide
      · exact htagnl tg htg
      · decide
      · rcases List.mem_map.mp hl0 with ⟨l1, hl1, rfl⟩
        rw [string_data_append]
        simp only [List.mem_append, not_or]
        exact ⟨by decide, not_nl_mem_splitNl d.data l1 hl1⟩
      · decide
    obtain ⟨xs, hxs⟩ : ∃ xs, splitNl d.data = xs ++ [[]] :=
      ⟨(splitNl d.data).dropLast, (List.dropLast_append_getLast? [] hd2).symm⟩
    have hxs' : (splitNl d.data).dropLast = xs := by rw [hxs]; simp
    have hxne : xs ≠ [] := hxs' ▸ hd3
    have hx4 : xs.getLast? ≠ some [] := hxs' ▸ hd4
    have h1 : dropTrailingEmptyLines (splitNl d.data) = xs := by
      rw [hxs, dropTrailingEmptyLines_append_nil]
      exact dropTrailingEmptyLines_eq_self xs hxne hx4
    have h2 : joinSep ['\n'] xs ++ ['\n'] = d.data := by
      rw [← joinSep_splitNl d.data, hxs, joinSep_append_empty _ _ hxne]
    have hclip : clipBlock (splitNl d.data) = d.data := by
      unfold clipBlock
      rw [h1]
      cases xs with
      | nil => exact absurd rfl hxne
      | cons y ys => exact h2
    have hstop : collectTags ("description: |".data ::
        ((splitNl d.data).map (fun c => "  ".data ++ c) ++ ["---".data])) =
        some ([], "description: |".data ::
          ((splitNl d.data).map (fun c => "  ".data ++ c) ++ ["---".data])) := by
      apply collectTags_stop
      decide
    have hcoll := collectTags_render (tags.map String.data)
        ("description: |".data ::
          ((splitNl d.data).map (fun c => "  ".data ++ c) ++ ["---".data]))
        htagsafe hstop
    have hdesc : parseDescL ("description: |".data ::
        ((splitNl d.data).map (fun c => "  ".data ++ c) ++ ["---".data])) =
        some (d.data, ["---".data]) := by
      rw [parseDescL, if_pos rfl,
        spanIndented_render _ _ (spanIndented_stop _ _ (by decide))]
      rw [if_pos (List.all_eq_true.mpr hd5)]
      rw [hclip]
    unfold reparse_frontmatter_block frontmatter_block
    rw [splitNl_pyJoin _ (by rw [hfl]; simp) hlines, hfl]
    simp only [List.map_append, List.map_cons, List.map_nil, List.cons_append,
      List.nil_append, map_tagline_data, pySplitNl, map_indent_data]
    have hbt' := hbt
    have hat' := hat
    have hcoll' := hcoll
    have hdesc' := hdesc
    simp at hbt' hat' hcoll' hdesc'
    simp [parseLinesFM, hbt', hat', hcoll', hts, hdesc', map_mk_data,
      map_mk_comp_data, string_mk_data]

/-- Witness for C7's amended theorem at concrete safe inputs, one per branch
of the description rule. -/
theorem frontmatter_roundtrip_safe_witness :
    reparse_frontmatter_block (frontmatter_block "T" "A" ⟨["tag1"], "hello"⟩) =
      some ("T", "A", ["tag1"], "hello") ∧
    reparse_frontmatter_block (frontmatter_block "T" "A" ⟨["tag1"], "a\nb\n"⟩) =
      some ("T", "A", ["tag1"], "a\nb\n") := by
  constructor
  · exact frontmatter_roundtrip_safe "T" "A" "hello" ["tag1"]
      ⟨by decide, by decide, by decide⟩ ⟨by decide, by decide, by decide⟩
      (by decide)
      (by intro tg htg; simp at htg; subst htg; exact ⟨by decide, by decide⟩)
      (Or.inl ⟨by decide, by decide, by decide⟩)
  · exact frontmatter_roundtrip_safe "T" "A" "a\nb\n" ["tag1"]
      ⟨by decide, by decide, by decide⟩ ⟨by decide, by decide, by decide⟩
      (by decide)
      (by intro tg htg; simp at htg; subst htg; exact ⟨by decide, by decide⟩)
      (Or.inr ⟨by decide, by decide, by decide, by decide, by decide⟩)

/-- Witness for C10 at a concrete run. -/
theorem conversion_deterministic_witness :
    format_to_markdown (parse_html_notebook [heading_el "Note - A >"]) fallback_frontmatter =
      format_to_markdown (parse_html_notebook [heading_el "Note - A >"]) fallback_frontmatter :=
  conversion_deterministic _ _ _ _ rfl rfl

end KindleClip2Md
